import Mathlib

/-
Verification of the request-governance and conversation-state subsystem of
the Grok_UI_Util program: the input validator, the API response validator,
the completion client's error mapping, the sliding-window rate limiter and
the bounded conversation history store, embedded shallowly from the source.
Timestamps are modelled as exact integers, JSON payloads as an inductive
value type, and the top-level submit flow as a pure state-passing function.
-/

/-- A JSON-like value as produced by parsing an API response body. -/
inductive Json where
  | null
  | bool (b : Bool)
  | num (n : Int)
  | str (s : String)
  | arr (elems : List Json)
  | obj (fields : List (String × Json))

/-- Dictionary lookup: the value stored under key k, if any
    (mirrors Python's dict indexing on a dict with unique keys). -/
def lookupJ (fields : List (String × Json)) (k : String) : Option Json :=
  (fields.find? (fun p => p.1 == k)).map Prod.snd

/-- Python truthiness of a JSON-like value (the source's `if not choices`). -/
def jFalsy : Json → Bool
  | Json.null => true
  | Json.bool b => !b
  | Json.num n => n == 0
  | Json.str s => s == ""
  | Json.arr xs => xs.isEmpty
  | Json.obj fields => fields.isEmpty

/-- Python's `x[0]` on a JSON-like value: first element of a non-empty list,
    first character of a non-empty string; anything else raises
    (TypeError / KeyError / IndexError), modelled as none. -/
def jIndex0 : Json → Option Json
  | Json.arr (x :: _) => some x
  | Json.str s =>
    match s.data with
    | c :: _ => some (Json.str (String.mk [c]))
    | [] => none
  | _ => none

/-- The distinct APIError raise sites of validate_api_response. -/
inductive ApiErrKind where
  | missingChoices
  | firstChoiceNotObj
  | messageNotObj
  | missingContent
deriving DecidableEq

/-- The message string carried by each APIError raised by validate_api_response,
    exactly as in the source. -/
def apiErrorMessage : ApiErrKind → String
  | ApiErrKind.missingChoices => "Invalid API response: missing or empty \x27choices\x27 array"
  | ApiErrKind.firstChoiceNotObj => "Invalid API response: first choice is not an object"
  | ApiErrKind.messageNotObj => "Invalid API response: message is not an object"
  | ApiErrKind.missingContent => "Invalid API response: missing \x27content\x27 in message"

/-- Outcome of validate_api_response: the extracted content, an APIError,
    or an uncaught Python exception on an exotically-shaped payload. -/
inductive VResult where
  | ok (content : Json)
  | apiErr (kind : ApiErrKind)
  | pyExc

/-- validate_api_response from the source: choices defaulted to an empty list,
    falsiness check, first choice must be a dict, message defaulted to an empty
    dict and must be a dict, content must be present and not None; the content
    is returned as-is. -/
def validate_api_response (response_data : List (String × Json)) : VResult :=
  if jFalsy ((lookupJ response_data "choices").getD (Json.arr [])) then
    VResult.apiErr ApiErrKind.missingChoices
  else
    match jIndex0 ((lookupJ response_data "choices").getD (Json.arr [])) with
    | none => VResult.pyExc
    | some (Json.obj first_choice) =>
      match (lookupJ first_choice "message").getD (Json.obj []) with
      | Json.obj message =>
        match lookupJ message "content" with
        | none => VResult.apiErr ApiErrKind.missingContent
        | some Json.null => VResult.apiErr ApiErrKind.missingContent
        | some content => VResult.ok content
      | _ => VResult.apiErr ApiErrKind.messageNotObj
    | some _ => VResult.apiErr ApiErrKind.firstChoiceNotObj

/-- C7: the response validator satisfies the three reference cases — an empty
    choices array yields the missing-or-empty-choices error, a well-formed
    payload with content "hi" yields ok "hi", and a message object without a
    content field yields the missing-content error — and on every success path
    the extracted content value is returned verbatim: whenever the payload has
    a choices array whose first element is an object whose message field is an
    object holding a non-null content value v, the validator returns exactly v,
    with no trimming or sanitization. -/
theorem validate_api_response_cases :
    validate_api_response [("choices", Json.arr [])]
      = VResult.apiErr ApiErrKind.missingChoices ∧
    validate_api_response
        [("choices", Json.arr [Json.obj [("message", Json.obj [("content", Json.str "hi")])]])]
      = VResult.ok (Json.str "hi") ∧
    validate_api_response [("choices", Json.arr [Json.obj [("message", Json.obj [])]])]
      = VResult.apiErr ApiErrKind.missingContent ∧
    ∀ (payload first_choice message : List (String × Json)) (rest : List Json) (v : Json),
      lookupJ payload "choices" = some (Json.arr (Json.obj first_choice :: rest)) →
      lookupJ first_choice "message" = some (Json.obj message) →
      lookupJ message "content" = some v →
      v ≠ Json.null →
      validate_api_response payload = VResult.ok v := by
  refine ⟨rfl, rfl, rfl, ?_⟩
  intro payload first_choice message rest v hchoices hmsg hcontent hv
  unfold validate_api_response
  rw [hchoices]
  simp only [Option.getD_some, jFalsy, List.isEmpty_cons, jIndex0]
  rw [hmsg]
  simp only [Option.getD_some]
  rw [hcontent]
  cases v with
  | null => exact absurd rfl hv
  | bool b => rfl
  | num n => rfl
  | str s => rfl
  | arr xs => rfl
  | obj fields => rfl

/-- Witness for C7: the verbatim-content conjunct applied to a concrete payload
    whose content is the untrimmed string "  hi  ". -/
theorem validate_api_response_cases_witness :
    lookupJ [("choices", Json.arr [Json.obj [("message", Json.obj [("content", Json.str "  hi  ")])]])]
        "choices"
      = some (Json.arr (Json.obj [("message", Json.obj [("content", Json.str "  hi  ")])] :: [])) ∧
    validate_api_response
        [("choices", Json.arr [Json.obj [("message", Json.obj [("content", Json.str "  hi  ")])]])]
      = VResult.ok (Json.str "  hi  ") := by
  refine ⟨rfl, ?_⟩
  exact validate_api_response_cases.2.2.2
    [("choices", Json.arr [Json.obj [("message", Json.obj [("content", Json.str "  hi  ")])]])]
    [("message", Json.obj [("content", Json.str "  hi  ")])]
    [("content", Json.str "  hi  ")]
    [] (Json.str "  hi  ") rfl rfl rfl (fun h => Json.noConfusion h)

/-- Rate-limit constants from the source. -/
def MAX_REQUESTS_PER_MINUTE : Nat := 10

/-- Rate-limit constants from the source. -/
def MAX_REQUESTS_PER_HOUR : Nat := 100

/-- RateLimiter state: configured limits and the two timestamp queues held in
    session state (each a deque whose maxlen equals the corresponding limit). -/
structure RateLimiter where
  minute_limit : Nat
  hour_limit : Nat
  minute_requests : List Int
  hour_requests : List Int

/-- The freshly initialized limiter: default limits, both queues empty. -/
def initRateLimiter : RateLimiter :=
  ⟨MAX_REQUESTS_PER_MINUTE, MAX_REQUESTS_PER_HOUR, [], []⟩

/-- _clean_old_requests: pop from the left while the head is older than the
    time window (timestamps as exact integers). -/
def clean_old_requests (queue : List Int) (now window_seconds : Int) : List Int :=
  queue.dropWhile (fun t => decide (t < now - window_seconds))

/-- Appending to a deque with a maximum length: the oldest entry is silently
    dropped once the capacity would be exceeded. -/
def dequeAppend (maxlen : Nat) (queue : List Int) (x : Int) : List Int :=
  (queue ++ [x]).drop (queue.length + 1 - maxlen)

/-- The three outcomes of can_make_request, each rejection carrying the
    computed wait time (next_available - current_time). -/
inductive RLDecision where
  | admitted
  | minuteRejected (wait : Int)
  | hourRejected (wait : Int)
deriving DecidableEq

/-- _format_wait_time from the source: seconds below one minute are shown as
    seconds, otherwise as whole minutes with a plural s. -/
def format_wait_time (seconds : Int) : String :=
  if seconds < 60 then toString seconds ++ " seconds"
  else toString (seconds / 60) ++ " minute" ++ (if 1 < seconds / 60 then "s" else "")

/-- The (allowed, message) pair returned by can_make_request for a decision,
    with the exact message strings of the source. -/
def decisionMessage : RLDecision → Bool × String
  | RLDecision.admitted => (true, "")
  | RLDecision.minuteRejected wait =>
    (false, "Rate limit exceeded. Please wait " ++ format_wait_time wait ++ ".")
  | RLDecision.hourRejected wait =>
    (false, "Hourly limit exceeded. Please wait " ++ format_wait_time wait ++ ".")

/-- can_make_request from the source: clean both queues in place, check the
    minute limit, then the hour limit, and only if both checks pass append the
    current time to both queues. -/
def can_make_request (rl : RateLimiter) (now : Int) : RLDecision × RateLimiter :=
  if rl.minute_limit ≤ (clean_old_requests rl.minute_requests now 60).length then
    (RLDecision.minuteRejected
        ((clean_old_requests rl.minute_requests now 60).headD 0 + 60 - now),
     ⟨rl.minute_limit, rl.hour_limit,
      clean_old_requests rl.minute_requests now 60,
      clean_old_requests rl.hour_requests now 3600⟩)
  else if rl.hour_limit ≤ (clean_old_requests rl.hour_requests now 3600).length then
    (RLDecision.hourRejected
        ((clean_old_requests rl.hour_requests now 3600).headD 0 + 3600 - now),
     ⟨rl.minute_limit, rl.hour_limit,
      clean_old_requests rl.minute_requests now 60,
      clean_old_requests rl.hour_requests now 3600⟩)
  else
    (RLDecision.admitted,
     ⟨rl.minute_limit, rl.hour_limit,
      dequeAppend rl.minute_limit (clean_old_requests rl.minute_requests now 60) now,
      dequeAppend rl.hour_limit (clean_old_requests rl.hour_requests now 3600) now⟩)

/-- Run the limiter over a sequence of call times, returning the final state. -/
def runLimiter : RateLimiter → List Int → RateLimiter
  | rl, [] => rl
  | rl, t :: ts => runLimiter (can_make_request rl t).2 ts

/-- Run the limiter over a sequence of call times, returning every decision. -/
def runDecisions : RateLimiter → List Int → List RLDecision
  | _, [] => []
  | rl, t :: ts => (can_make_request rl t).1 :: runDecisions (can_make_request rl t).2 ts

/-- Appending below capacity never evicts: the deque append is a plain append. -/
theorem dequeAppend_of_lt (maxlen : Nat) (queue : List Int) (x : Int)
    (h : queue.length < maxlen) : dequeAppend maxlen queue x = queue ++ [x] := by
  unfold dequeAppend
  have hz : queue.length + 1 - maxlen = 0 := by omega
  rw [hz, List.drop_zero]

/-- Cleaning only removes entries: the queue never grows. -/
theorem length_clean_le (queue : List Int) (now window_seconds : Int) :
    (clean_old_requests queue now window_seconds).length ≤ queue.length :=
  (List.dropWhile_suffix _).length_le

/-- After cleaning, the oldest surviving entry is within the window. -/
theorem clean_head_ge (queue : List Int) (now window_seconds : Int)
    (h : clean_old_requests queue now window_seconds ≠ []) :
    now - window_seconds ≤ (clean_old_requests queue now window_seconds).headD 0 := by
  induction queue with
  | nil => simp [clean_old_requests] at h
  | cons t rest ih =>
    by_cases ht : t < now - window_seconds
    · have hstep : clean_old_requests (t :: rest) now window_seconds
          = clean_old_requests rest now window_seconds := by
        simp [clean_old_requests, List.dropWhile_cons, ht]
      rw [hstep] at h ⊢
      exact ih h
    · have hstep : clean_old_requests (t :: rest) now window_seconds = t :: rest := by
        simp [clean_old_requests, List.dropWhile_cons, ht]
      rw [hstep]
      simpa using not_lt.mp ht

/-- One limiter step preserves the configured limits. -/
theorem can_make_request_limits (rl : RateLimiter) (now : Int) :
    (can_make_request rl now).2.minute_limit = rl.minute_limit ∧
    (can_make_request rl now).2.hour_limit = rl.hour_limit := by
  unfold can_make_request
  split
  · exact ⟨rfl, rfl⟩
  · split
    · exact ⟨rfl, rfl⟩
    · exact ⟨rfl, rfl⟩

/-- One limiter step preserves the queue-length bounds. -/
theorem can_make_request_bounds (rl : RateLimiter) (now : Int)
    (hm : rl.minute_requests.length ≤ rl.minute_limit)
    (hh : rl.hour_requests.length ≤ rl.hour_limit) :
    (can_make_request rl now).2.minute_requests.length ≤ rl.minute_limit ∧
    (can_make_request rl now).2.hour_requests.length ≤ rl.hour_limit := by
  unfold can_make_request
  split
  · exact ⟨le_trans (length_clean_le _ _ _) hm, le_trans (length_clean_le _ _ _) hh⟩
  · split
    · exact ⟨le_trans (length_clean_le _ _ _) hm, le_trans (length_clean_le _ _ _) hh⟩
    · rename_i hml hhl
      have h1 : (clean_old_requests rl.minute_requests now 60).length < rl.minute_limit :=
        not_le.mp hml
      have h2 : (clean_old_requests rl.hour_requests now 3600).length < rl.hour_limit :=
        not_le.mp hhl
      constructor
      · rw [dequeAppend_of_lt _ _ _ h1]
        simpa using h1
      · rw [dequeAppend_of_lt _ _ _ h2]
        simpa using h2

/-- Any run from a state within bounds stays within bounds, with the limits
    themselves unchanged. -/
theorem runLimiter_bounds (ts : List Int) (rl : RateLimiter)
    (hm : rl.minute_requests.length ≤ rl.minute_limit)
    (hh : rl.hour_requests.length ≤ rl.hour_limit) :
    (runLimiter rl ts).minute_limit = rl.minute_limit ∧
    (runLimiter rl ts).hour_limit = rl.hour_limit ∧
    (runLimiter rl ts).minute_requests.length ≤ rl.minute_limit ∧
    (runLimiter rl ts).hour_requests.length ≤ rl.hour_limit := by
  induction ts generalizing rl with
  | nil => exact ⟨rfl, rfl, hm, hh⟩
  | cons t ts ih =>
    have hstep := can_make_request_bounds rl t hm hh
    have hlim := can_make_request_limits rl t
    have := ih (can_make_request rl t).2
      (by rw [hlim.1]; exact hstep.1) (by rw [hlim.2]; exact hstep.2)
    simp only [runLimiter]
    exact ⟨by rw [this.1, hlim.1], by rw [this.2.1, hlim.2],
      by rw [← hlim.1]; exact this.2.2.1, by rw [← hlim.2]; exact this.2.2.2⟩

/-- C5: for every sequence of calls to the limiter started fresh, at every
    point the minute window holds at most 10 timestamps falling within any
    trailing 60-second interval and the hour window at most 100 within any
    trailing 3600-second interval (quantifying the trace covers every
    intermediate point of a longer run). -/
theorem sliding_window_counts_bounded (ts : List Int) (t : Int) :
    ((runLimiter initRateLimiter ts).minute_requests.filter
        (fun x => decide (t - 60 < x ∧ x ≤ t))).length ≤ MAX_REQUESTS_PER_MINUTE ∧
    ((runLimiter initRateLimiter ts).hour_requests.filter
        (fun x => decide (t - 3600 < x ∧ x ≤ t))).length ≤ MAX_REQUESTS_PER_HOUR := by
  have h := runLimiter_bounds ts initRateLimiter (by simp [initRateLimiter]) (by simp [initRateLimiter])
  constructor
  · exact le_trans (List.length_filter_le _ _) h.2.2.1
  · exact le_trans (List.length_filter_le _ _) h.2.2.2

/-- C4: admission is all-or-nothing across both windows — every call either
    admits and appends the current time to both the minute and the hour queue,
    or rejects and leaves both queues exactly as lazy purging produced them;
    a timestamp is never recorded in only one window. -/
theorem rate_limiter_atomic (rl : RateLimiter) (now : Int) :
    ((can_make_request rl now).1 = RLDecision.admitted ∧
      (can_make_request rl now).2.minute_requests
        = clean_old_requests rl.minute_requests now 60 ++ [now] ∧
      (can_make_request rl now).2.hour_requests
        = clean_old_requests rl.hour_requests now 3600 ++ [now]) ∨
    ((can_make_request rl now).1 ≠ RLDecision.admitted ∧
      (can_make_request rl now).2.minute_requests
        = clean_old_requests rl.minute_requests now 60 ∧
      (can_make_request rl now).2.hour_requests
        = clean_old_requests rl.hour_requests now 3600) := by
  unfold can_make_request
  split
  · exact Or.inr ⟨by simp, rfl, rfl⟩
  · split
    · exact Or.inr ⟨by simp, rfl, rfl⟩
    · rename_i hml hhl
      refine Or.inl ⟨rfl, ?_, ?_⟩
      · exact dequeAppend_of_lt _ _ _ (not_le.mp hml)
      · exact dequeAppend_of_lt _ _ _ (not_le.mp hhl)

/-- Witness for C4: the atomicity disjunction at a concrete state and time. -/
theorem rate_limiter_atomic_witness :
    (((can_make_request initRateLimiter 5).1 = RLDecision.admitted ∧
      (can_make_request initRateLimiter 5).2.minute_requests
        = clean_old_requests initRateLimiter.minute_requests 5 60 ++ [5] ∧
      (can_make_request initRateLimiter 5).2.hour_requests
        = clean_old_requests initRateLimiter.hour_requests 5 3600 ++ [5]) ∨
    ((can_make_request initRateLimiter 5).1 ≠ RLDecision.admitted ∧
      (can_make_request initRateLimiter 5).2.minute_requests
        = clean_old_requests initRateLimiter.minute_requests 5 60 ∧
      (can_make_request initRateLimiter 5).2.hour_requests
        = clean_old_requests initRateLimiter.hour_requests 5 3600)) :=
  rate_limiter_atomic initRateLimiter 5

/-- C6: on every rejection with positive configured limits, the computed wait
    time is exactly the oldest surviving entry plus the window duration minus
    now, and it is never negative — the purge already guarantees the boundary
    entry is within the window, so the clamp to 0 the spec asks for is
    vacuous. -/
theorem retry_after_exact_nonneg (rl : RateLimiter) (now : Int)
    (hm : 0 < rl.minute_limit) (hh : 0 < rl.hour_limit) :
    (∀ w, (can_make_request rl now).1 = RLDecision.minuteRejected w →
      w = (clean_old_requests rl.minute_requests now 60).headD 0 + 60 - now ∧ 0 ≤ w) ∧
    (∀ w, (can_make_request rl now).1 = RLDecision.hourRejected w →
      w = (clean_old_requests rl.hour_requests now 3600).headD 0 + 3600 - now ∧ 0 ≤ w) := by
  unfold can_make_request
  split
  · rename_i hml
    constructor
    · intro w hw
      simp only [Prod.fst] at hw
      cases hw
      have hne : clean_old_requests rl.minute_requests now 60 ≠ [] := by
        intro hnil
        rw [hnil] at hml
        simp at hml
        omega
      have := clean_head_ge rl.minute_requests now 60 hne
      exact ⟨rfl, by omega⟩
    · intro w hw
      simp at hw
  · split
    · rename_i hhl
      constructor
      · intro w hw
        simp at hw
      · intro w hw
        simp only [Prod.fst] at hw
        cases hw
        have hne : clean_old_requests rl.hour_requests now 3600 ≠ [] := by
          intro hnil
          rw [hnil] at hhl
          simp at hhl
          omega
        have := clean_head_ge rl.hour_requests now 3600 hne
        exact ⟨rfl, by omega⟩
    · constructor
      · intro w hw
        simp at hw
      · intro w hw
        simp at hw

/-- A concrete rejecting limiter state for the C6 witness: minute limit 1,
    one request recorded at time 5, checked again at time 10. -/
def rejectingRL : RateLimiter := ⟨1, 100, [5], [5]⟩

/-- Witness for C6: at time 10 the state rejects on the minute window and the
    theorem yields the exact, non-negative wait of 55 seconds. -/
theorem retry_after_exact_nonneg_witness :
    0 < rejectingRL.minute_limit ∧ 0 < rejectingRL.hour_limit ∧
    ((55 : Int) = (clean_old_requests rejectingRL.minute_requests 10 60).headD 0 + 60 - 10 ∧
      (0 : Int) ≤ 55) :=
  ⟨by decide, by decide,
    (retry_after_exact_nonneg rejectingRL 10 (by decide) (by decide)).1 55 rfl⟩

/-- A trace of 101 calls: 100 requests spaced 36 seconds apart (at most two of
    them ever fall inside any 60-second window) followed by one more call at
    time 3570, while all 100 earlier timestamps are still inside the hour
    window. -/
def hourTrace : List Int := (List.range 100).map (fun i => (36 : Int) * i) ++ [3570]

set_option maxRecDepth 40000 in
/-- C3 counterexample: the per-hour rejection outcome does occur — running the
    freshly initialized limiter over hourTrace produces a rejection from the
    hourly branch, refuting the unreachability of that branch. -/
theorem hour_rejection_reachable :
    RLDecision.hourRejected 30 ∈ runDecisions initRateLimiter hourTrace := by
  decide

set_option maxRecDepth 40000 in
/-- C3 amended: the Hourly-limit-exceeded branch is reachable. Because a call
    is rejected before anything is appended, the hour queue grows to exactly
    its maximum length (which equals the hour limit), the auto-eviction of the
    fixed-length queue never fires inside can_make_request, and the check that
    the length has reached the hour limit registers as true: on hourTrace the
    first 100 calls are all admitted and the 101st is rejected by the hourly
    branch with a wait of 30 seconds. -/
theorem hour_rejection_trace :
    runDecisions initRateLimiter hourTrace
      = List.replicate 100 RLDecision.admitted ++ [RLDecision.hourRejected 30] := by
  decide

/-- A conversation history entry: creation timestamp, user input, response. -/
structure ConversationEntry where
  timestamp : String
  user_input : String
  response : String
deriving DecidableEq

/-- Python's negative-start slice history[-n:]: the last n elements, except
    that a start of -0 is just 0 and returns the whole list. -/
def pySliceLast (n : Nat) (l : List ConversationEntry) : List ConversationEntry :=
  if n = 0 then l else l.drop (l.length - n)

/-- add_conversation from the source: build the entry, append it, and trim the
    history to its last max_history elements when it exceeds max_history. -/
def add_conversation (max_history : Nat) (conversation_history : List ConversationEntry)
    (timestamp user_input response : String) : List ConversationEntry :=
  let entry : ConversationEntry := ⟨timestamp, user_input, response⟩
  let history := conversation_history ++ [entry]
  if max_history < history.length then pySliceLast max_history history else history

/-- Repeated add_conversation over a sequence of entries. -/
def addAll (max_history : Nat) (conversation_history : List ConversationEntry)
    (entries : List ConversationEntry) : List ConversationEntry :=
  entries.foldl
    (fun h e => add_conversation max_history h e.timestamp e.user_input e.response)
    conversation_history

/-- For a positive capacity one add is exactly append-then-keep-the-last-m. -/
theorem add_conversation_eq (m : Nat) (hm : 0 < m)
    (h : List ConversationEntry) (e : ConversationEntry) :
    add_conversation m h e.timestamp e.user_input e.response
      = (h ++ [e]).drop (h.length + 1 - m) := by
  unfold add_conversation pySliceLast
  simp only [List.length_append, List.length_cons, List.length_nil]
  split
  · rename_i hlt
    rw [if_neg (by omega)]
  · rename_i hle
    have : h.length + 1 - m = 0 := by omega
    rw [this, List.drop_zero]

/-- C8: from an empty store, any sequence of appends leaves exactly the newest
    min(length, max_history) entries in insertion order — the stored length
    never exceeds max_history, the entries dropped are exactly the oldest by
    insertion order, and the newest max_history entries are always present. -/
theorem conversation_history_bounded (m : Nat) (entries : List ConversationEntry)
    (hm : 0 < m) :
    addAll m [] entries = entries.drop (entries.length - m) ∧
    (addAll m [] entries).length ≤ m := by
  have key : addAll m [] entries = entries.drop (entries.length - m) := by
    induction entries using List.reverseRecOn with
    | nil => simp [addAll]
    | append_singleton es e ih =>
      have hfold : addAll m [] (es ++ [e])
          = add_conversation m (addAll m [] es) e.timestamp e.user_input e.response := by
        unfold addAll
        rw [List.foldl_append]
        rfl
      rw [hfold, ih, add_conversation_eq m hm]
      have hk : es.length - m ≤ es.length := by omega
      rw [← List.drop_append_of_le_length hk, List.drop_drop]
      have hlen : (es.drop (es.length - m)).length = es.length - (es.length - m) :=
        List.length_drop _ _
      have harith : es.length - m + (es.length - (es.length - m) + 1 - m)
          = (es ++ [e]).length - m := by
        simp only [List.length_append, List.length_cons, List.length_nil]
        omega
      rw [hlen, harith]
  refine ⟨key, ?_⟩
  rw [key]
  have := List.length_drop (entries.length - m) entries
  omega

/-- Three concrete entries for the C8 witness. -/
def demoEntries : List ConversationEntry :=
  [⟨"t1", "q1", "r1"⟩, ⟨"t2", "q2", "r2"⟩, ⟨"t3", "q3", "r3"⟩]

/-- Witness for C8: with capacity 2, appending three entries keeps exactly the
    newest two. -/
theorem conversation_history_bounded_witness :
    0 < 2 ∧
    (addAll 2 [] demoEntries = demoEntries.drop (demoEntries.length - 2) ∧
      (addAll 2 [] demoEntries).length ≤ 2) :=
  ⟨by decide, conversation_history_bounded 2 demoEntries (by decide)⟩

/-- get_history from the source: returns a reversed copy of the stored history
    (newest first) and leaves the stored sequence itself untouched; the pair is
    (returned value, session state after the call). -/
def get_history (conversation_history : List ConversationEntry) :
    List ConversationEntry × List ConversationEntry :=
  (conversation_history.reverse, conversation_history)

/-- C9: reversing the newest-first sequence returned by get_history reproduces
    the insertion order exactly, and retrieval is read-only — the stored
    sequence after the call is the one before it. -/
theorem get_history_round_trip (conversation_history : List ConversationEntry) :
    ((get_history conversation_history).1).reverse = conversation_history ∧
    (get_history conversation_history).2 = conversation_history :=
  ⟨List.reverse_reverse conversation_history, rfl⟩

/-- Input-length constants from the source. -/
def MAX_INPUT_LENGTH : Nat := 4000

/-- Input-length constants from the source. -/
def MIN_INPUT_LENGTH : Nat := 1

/-- A character Python str.strip() removes by default (the ASCII whitespace
    characters). -/
def isPySpace (c : Char) : Bool :=
  c == ' ' || c == '\t' || c == '\n' || c == '\x0b' || c == '\x0c' || c == '\r'

/-- Python str.strip(): drop whitespace from both ends. -/
def pyStrip (s : String) : String :=
  String.mk (((s.data.dropWhile isPySpace).reverse.dropWhile isPySpace).reverse)

/-- validate_input from the source: a falsy or whitespace-only string is
    rejected as empty, then the length bounds are checked, with the exact
    message strings of the source. -/
def validate_input (user_input : String) : Bool × String :=
  if user_input = "" ∨ pyStrip user_input = "" then (false, "Input cannot be empty")
  else if user_input.length < MIN_INPUT_LENGTH then
    (false, "Input must be at least 1 character long")
  else if MAX_INPUT_LENGTH < user_input.length then
    (false, "Input exceeds maximum length of 4000 characters")
  else (true, "")

/-- C10: every non-empty string consisting only of whitespace characters is
    rejected with the message Input cannot be empty even though its raw length
    is between 1 and 4000 — emptiness is judged on the stripped string, not
    the raw length. -/
theorem validate_input_whitespace_only (s : String)
    (_hne : s.data ≠ [])
    (hws : ∀ c ∈ s.data, isPySpace c = true)
    (_hlen : s.length ≤ 4000) :
    validate_input s = (false, "Input cannot be empty") := by
  have hdrop : s.data.dropWhile isPySpace = [] :=
    List.dropWhile_eq_nil_iff.mpr hws
  have hstrip : pyStrip s = "" := by
    unfold pyStrip
    rw [hdrop]
    rfl
  unfold validate_input
  rw [if_pos (Or.inr hstrip)]

/-- Witness for C10: the three-space string is non-empty, all-whitespace, of
    length at most 4000, and is rejected as empty. -/
theorem validate_input_whitespace_only_witness :
    "   ".data ≠ [] ∧ (∀ c ∈ "   ".data, isPySpace c = true) ∧ "   ".length ≤ 4000 ∧
    validate_input "   " = (false, "Input cannot be empty") :=
  ⟨by decide, by decide, by decide,
    validate_input_whitespace_only "   " (by decide) (by decide) (by decide)⟩

/-- Outcome of parsing the HTTP response body. -/
inductive BodyParse where
  | unparseable
  | parsed (j : Json)

/-- A single HTTP exchange as seen by query_grok: either the request raised a
    transport error, or a response arrived with a status code and a body. -/
inductive HttpExchange where
  | transportFailure
  | response (status_code : Nat) (body : BodyParse)

/-- The Python exception classes distinguished by query_grok's except chain. -/
inductive PyExc where
  | requestException
  | jsonDecodeError
  | apiError (message : String)
  | otherException

/-- response.json(): either the parsed value or a JSONDecodeError. -/
def parse_response_json : BodyParse → Except PyExc Json
  | BodyParse.unparseable => Except.error PyExc.jsonDecodeError
  | BodyParse.parsed j => Except.ok j

/-- The try-block of query_grok: raise APIError on a non-200 status; parse the
    body, converting a JSONDecodeError into an APIError inside the inner
    try-except; then validate the parsed payload, whose APIErrors propagate and
    whose uncaught Python exceptions surface as generic exceptions. -/
def query_grok_body : HttpExchange → Except PyExc Json
  | HttpExchange.transportFailure => Except.error PyExc.requestException
  | HttpExchange.response status_code body =>
    if status_code ≠ 200 then
      Except.error (PyExc.apiError ("API request failed with status " ++ toString status_code))
    else
      match parse_response_json body with
      | Except.error PyExc.jsonDecodeError =>
        Except.error (PyExc.apiError "Failed to parse API response as JSON")
      | Except.error e => Except.error e
      | Except.ok result =>
        match result with
        | Json.obj fields =>
          match validate_api_response fields with
          | VResult.ok content => Except.ok content
          | VResult.apiErr kind => Except.error (PyExc.apiError (apiErrorMessage kind))
          | VResult.pyExc => Except.error PyExc.otherException
        | _ => Except.error PyExc.otherException

/-- The except chain of query_grok, in source order, mapping each escaping
    exception class to the user-friendly message handed to handle_error. -/
def except_chain : PyExc → String
  | PyExc.requestException => "Failed to connect to Grok API"
  | PyExc.jsonDecodeError => "Failed to parse API response"
  | PyExc.apiError _ => "API request failed"
  | PyExc.otherException => "An unexpected error occurred"

/-- handle_error: the displayed string is the user-friendly message plus the
    generated correlation id. -/
def handle_error (user_friendly_message error_id : String) : String :=
  user_friendly_message ++ " (Error ID: " ++ error_id ++ ")"

/-- What query_grok returns: the response content on success, otherwise the
    user-friendly message chosen by the except chain (handle_error appends the
    correlation id before display). -/
inductive QueryResult where
  | success (content : Json)
  | failure (user_message : String)

/-- query_grok from the source, as a function of the HTTP exchange outcome. -/
def query_grok (exchange : HttpExchange) : QueryResult :=
  match query_grok_body exchange with
  | Except.ok content => QueryResult.success content
  | Except.error e => QueryResult.failure (except_chain e)

/-- C2 evaluated at the failing input: a status-200 exchange with an
    unparseable body produces the user message API request failed — the inner
    except converts the JSONDecodeError into an APIError, so the except arm
    that would report Failed to parse API response (shown distinct here) is
    never the one taken. -/
theorem parse_failure_reports_api_request_failed :
    query_grok (HttpExchange.response 200 BodyParse.unparseable)
      = QueryResult.failure "API request failed" ∧
    except_chain PyExc.jsonDecodeError = "Failed to parse API response" :=
  ⟨rfl, rfl⟩

/-- What the top-level submit block does with a click: nothing when the input
    is falsy, an error display when the rate limiter rejects, or a call to
    query_grok — which unconditionally issues the HTTP POST — when the limiter
    admits. validate_input is never consulted on this path. -/
inductive SubmitOutcome where
  | noAction
  | rateLimited (message : String)
  | httpIssued (user_input : String)
deriving DecidableEq

/-- The top-level submit flow from the source: `if submit_button and
    user_input:` then can_make_request, then query_grok on admission. -/
def submit_flow (submit_button : Bool) (user_input : String) (rl : RateLimiter)
    (now : Int) : SubmitOutcome × RateLimiter :=
  if submit_button = true ∧ user_input ≠ "" then
    match can_make_request rl now with
    | (RLDecision.admitted, rl') => (SubmitOutcome.httpIssued user_input, rl')
    | (d, rl') => (SubmitOutcome.rateLimited (decisionMessage d).2, rl')
  else (SubmitOutcome.noAction, rl)

/-- A list none of whose elements satisfies the predicate is untouched by
    dropWhile. -/
theorem dropWhile_eq_self_of (p : Char → Bool) (l : List Char)
    (h : ∀ c ∈ l, p c = false) : l.dropWhile p = l := by
  cases l with
  | nil => rfl
  | cons a t =>
    have ha : p a = false := h a (by simp)
    simp [List.dropWhile_cons, ha]

/-- Stripping a string with no whitespace characters leaves it unchanged. -/
theorem pyStrip_eq_self (s : String) (h : ∀ c ∈ s.data, isPySpace c = false) :
    pyStrip s = s := by
  unfold pyStrip
  rw [dropWhile_eq_self_of _ _ h,
    dropWhile_eq_self_of _ _ (fun c hc => h c (List.mem_reverse.mp hc)),
    List.reverse_reverse]

/-- An input of length 4001, one character over the maximum. -/
def longInput : String := String.mk (List.replicate 4001 'a')

/-- C1 evaluated at the failing input: submitting a 4001-character input first
    consults the rate limiter, which admits it and records the timestamp in
    both windows, and then issues the HTTP request — no local
    InputValidationError occurs, even though validate_input, had it been
    called, would have rejected the very same input. -/
theorem submit_flow_skips_input_validation :
    (submit_flow true longInput initRateLimiter 0).1 = SubmitOutcome.httpIssued longInput ∧
    (submit_flow true longInput initRateLimiter 0).2.minute_requests = [0] ∧
    (submit_flow true longInput initRateLimiter 0).2.hour_requests = [0] ∧
    validate_input longInput = (false, "Input exceeds maximum length of 4000 characters") := by
  have hdata : longInput.data = List.replicate 4001 'a' := rfl
  have hne : longInput ≠ "" := by
    intro h
    have hd : longInput.data = ([] : List Char) := congrArg String.data h
    rw [hdata] at hd
    have hlen0 : (List.replicate 4001 'a').length = ([] : List Char).length :=
      congrArg List.length hd
    rw [List.length_replicate] at hlen0
    exact absurd hlen0 (by norm_num)
  have hflow : submit_flow true longInput initRateLimiter 0
      = (SubmitOutcome.httpIssued longInput, ⟨10, 100, [0], [0]⟩) := by
    unfold submit_flow
    rw [if_pos ⟨rfl, hne⟩]
    rfl
  have hsub : ∀ x ∈ longInput.data, isPySpace x = false := by
    rw [hdata]
    intro x hx
    rw [List.eq_of_mem_replicate hx]
    rfl
  have hstrip : pyStrip longInput ≠ "" := by
    rw [pyStrip_eq_self longInput hsub]
    exact hne
  have hL : longInput.length = 4001 := by
    show longInput.data.length = 4001
    rw [hdata]
    exact List.length_replicate 4001 'a'
  refine ⟨by rw [hflow], by rw [hflow], by rw [hflow], ?_⟩
  unfold validate_input
  rw [if_neg (by push_neg; exact ⟨hne, hstrip⟩), hL]
  norm_num [MIN_INPUT_LENGTH, MAX_INPUT_LENGTH]
